import Mathlib

/-!
Verification development for the Dino-Park character core: the validated
value types, the Character aggregate, the composable specification algebra
(`CharacterSpecification.js`, stored alongside `DinossauroRepository.js`),
the in-memory repository (`CharacterRepository.js`), and the application
service (`CharacterService`).

The repository and service code is embedded directly from the JavaScript
source.  The entities module (`src/entities`: `Character`, `CharacterName`,
`CharacterLevel`, `CharacterClass`) is not part of the source snapshot —
only its callers and tests are — so those definitions are modelled from the
specification document, and each such definition is marked in its doc
comment.

JavaScript `Map` objects (the repository's backing store) are modelled as
association lists with JavaScript `Map` semantics: `set` on an existing key
replaces the value in place, preserving insertion order; `set` on a fresh
key appends; iteration follows insertion order.  Machine numbers appearing
here (levels) are small integers, modelled as `Int` without overflow
concerns.
-/

namespace DinoPark

/-- ASCII lower-casing of one character, the effect of JavaScript
`toLowerCase` on the ASCII names appearing in this codebase.  (Defined on
the character's code so that it evaluates inside the kernel.) -/
def lowerChar (c : Char) : Char :=
  if 65 ≤ c.toNat ∧ c.toNat ≤ 90 then Char.ofNat (c.toNat + 32) else c

/-- JavaScript `String.prototype.toLowerCase` on ASCII strings. -/
def jsToLower (s : String) : String :=
  ⟨s.data.map lowerChar⟩

/-- ASCII whitespace, the characters JavaScript `trim` strips from the
names appearing in this codebase. -/
def isWhitespaceChar (c : Char) : Bool :=
  c = ' ' || c = '\t' || c = '\n' || c = '\r'

/-- JavaScript `String.prototype.trim` on ASCII strings. -/
def jsTrim (s : String) : String :=
  ⟨((s.data.dropWhile isWhitespaceChar).reverse.dropWhile isWhitespaceChar).reverse⟩

/-- Domain error kinds, following the error taxonomy realized in
`src/errors/DomainErrors.js` (`CharacterNotFoundError`,
`CharacterAlreadyExistsError`, `InvalidOperationError`, ...) plus the
`validation` kind for value-object construction failures and for the plain
`Error` thrown by `InMemoryCharacterRepository.#validateLevelRange`, which
the specification's taxonomy classifies as a ValidationError kind. -/
inductive DomainErr where
  | validation (msg : String)
  | notFound (name : String)
  | alreadyExists (name : String)
  | invalidOperation (op reason : String)
deriving DecidableEq, Repr

/-- The Character aggregate's observable state: name (trimmed, original
casing), class (canonical casing), level.  The entity class itself is
missing from the source snapshot; its field set `{name, class, level}` is
fixed by `toPlainObject` in the specification and by every caller in the
repository and service code. -/
structure Character where
  name : String
  cls : String
  level : Int
deriving DecidableEq, Repr

/-- Modelled from the spec: `CharacterName` construction (the entities
module is missing from the snapshot).  A name is trimmed and must have
length at least 2; invalid input fails with a ValidationError of kind
InvalidName.  The returned string is the `value()` of the name object. -/
def mkCharacterName (s : String) : Except DomainErr String :=
  let t := jsTrim s
  if 2 ≤ t.length then .ok t else .error (.validation "InvalidName")

/-- Modelled from the spec: the fixed class enumeration with
case-insensitive input and canonical casing on output (the entities module
is missing from the snapshot).  Unknown names fail with kind InvalidClass. -/
def canonicalClass (s : String) : Option String :=
  List.lookup (jsToLower s)
    [("guerreiro", "Guerreiro"), ("mago", "Mago"),
     ("arqueiro", "Arqueiro"), ("paladino", "Paladino")]

/-- Modelled from the spec: `CharacterClass` construction. -/
def mkCharacterClass (s : String) : Except DomainErr String :=
  match canonicalClass s with
  | some c => .ok c
  | none => .error (.validation "InvalidClass")

/-- Modelled from the spec: `CharacterLevel` construction — an integer in
[1, 100] inclusive; outside that range fails with kind InvalidLevel. -/
def mkCharacterLevel (l : Int) : Except DomainErr Int :=
  if 1 ≤ l ∧ l ≤ 100 then .ok l else .error (.validation "InvalidLevel")

/-- Modelled from the spec: the `Character` constructor accepts raw
primitives and normalizes them through the value-type constructors,
failing fast on invalid input (the entities module is missing from the
snapshot). -/
def mkCharacter (name cls : String) (level : Int) : Except DomainErr Character := do
  let n ← mkCharacterName name
  let c ← mkCharacterClass cls
  let l ← mkCharacterLevel level
  .ok { name := n, cls := c, level := l }

/-- Modelled from the spec: `CharacterName.equals` is case-insensitive. -/
def nameEquals (a b : String) : Bool :=
  jsToLower a == jsToLower b

/-- Modelled from the spec: `CharacterClass.equals` is case-insensitive. -/
def classEquals (a b : String) : Bool :=
  jsToLower a == jsToLower b

/-- Modelled from the spec: the novice band, level < 20. -/
def Character.isNovice (c : Character) : Bool :=
  c.level < 20

/-- Modelled from the spec: the experienced band, 20 ≤ level < 90. -/
def Character.isExperienced (c : Character) : Bool :=
  20 ≤ c.level ∧ c.level < 90

/-- Modelled from the spec: the master band, level ≥ 90. -/
def Character.isMaster (c : Character) : Bool :=
  90 ≤ c.level

/-- Modelled from the spec: `levelUp()` increments the level by one and
reports success; at the cap of 100 it reports failure and changes nothing
(the service checks the returned success flag).  The in-place JavaScript
mutation is rendered by returning the updated aggregate alongside the
flag. -/
def Character.levelUp (c : Character) : Bool × Character :=
  if 100 ≤ c.level then (false, c)
  else (true, { c with level := c.level + 1 })

/-- Modelled from the spec: `canFight(other)` is false against the same
character (case-insensitive name equality), false when the absolute level
difference exceeds 20, and true otherwise. -/
def Character.canFight (a b : Character) : Bool :=
  if nameEquals a.name b.name then false
  else if 20 < (a.level - b.level).natAbs then false
  else true

/-! ## Specification algebra

From `CharacterSpecification.js`: an abstract `CharacterSpecification`
with `isSatisfiedBy`, arbitrary primitive subclasses, and the composite
`AndSpecification` / `OrSpecification` / `NotSpecification`.  Primitive
specifications (class, minimum level, experienced, master, combat power,
name pattern) are each a boolean predicate on the aggregate, so the `prim`
leaf carries an arbitrary `Character → Bool`; the concrete leaves from the
source are built below as `prim` nodes with their exact predicate bodies. -/

inductive Spec where
  | prim (p : Character → Bool)
  | and (l r : Spec)
  | or (l r : Spec)
  | not (s : Spec)

/-- Evaluation, one clause per `isSatisfiedBy` body in
`CharacterSpecification.js`: `AndSpecification` returns
`left.isSatisfiedBy(c) && right.isSatisfiedBy(c)`, `OrSpecification` the
disjunction, `NotSpecification` the boolean negation. -/
def Spec.isSatisfiedBy : Spec → Character → Bool
  | .prim p, ch => p ch
  | .and l r, ch => l.isSatisfiedBy ch && r.isSatisfiedBy ch
  | .or l r, ch => l.isSatisfiedBy ch || r.isSatisfiedBy ch
  | .not s, ch => !s.isSatisfiedBy ch

/-- `ClassSpecification.isSatisfiedBy`:
`character.characterClass().equals(this.#characterClass)`. -/
def ClassSpecification (c : String) : Spec :=
  .prim fun ch => classEquals ch.cls c

/-- `MinimumLevelSpecification.isSatisfiedBy`:
`character.level().isGreaterThan(min) || character.level().equals(min)`. -/
def MinimumLevelSpecification (l : Int) : Spec :=
  .prim fun ch => decide (l < ch.level) || decide (ch.level = l)

/-- `ExperiencedCharacterSpecification.isSatisfiedBy`:
`character.isExperienced()`. -/
def ExperiencedCharacterSpecification : Spec :=
  .prim fun ch => ch.isExperienced

/-- `MasterCharacterSpecification.isSatisfiedBy`: `character.isMaster()`. -/
def MasterCharacterSpecification : Spec :=
  .prim fun ch => ch.isMaster

/-! ## In-memory repository

From `InMemoryCharacterRepository` in `CharacterRepository.js`.  The
private `#characters` JavaScript `Map` is an association list from
lower-cased names to characters. -/

/-- The repository's backing store: insertion-ordered key/value pairs. -/
abbrev CharMap := List (String × Character)

/-- JavaScript `Map.prototype.set`: replace in place when the key is
present (insertion order preserved), append otherwise.  A `Map` never
holds two entries with the same key, so replacing the first match is
exact. -/
def mapSet : CharMap → String → Character → CharMap
  | [], k, v => [(k, v)]
  | p :: rest, k, v =>
    if p.1 = k then (k, v) :: rest else p :: mapSet rest k v

/-- JavaScript `Map.prototype.get`, as an option: the value of the entry
with the matching key, if any. -/
def mapGet : CharMap → String → Option Character
  | [], _ => none
  | p :: rest, k => if p.1 = k then some p.2 else mapGet rest k

/-- JavaScript `Map.prototype.has`: whether an entry with the key exists. -/
def mapHas : CharMap → String → Bool
  | [], _ => false
  | p :: rest, k => p.1 = k || mapHas rest k

/-- JavaScript `Map.prototype.delete`'s effect on the entries (a `Map`
holds at most one entry per key). -/
def mapDelete (m : CharMap) (k : String) : CharMap :=
  m.filter fun p => p.1 ≠ k

/-- `#createKey`: lower-cases the name's string value. -/
def createKey (n : String) : String :=
  jsToLower n

/-- The five default characters built by `#initializeDefaultCharacters`.
Each is produced by the `Character` constructor; a constructor failure
would throw in JavaScript, and none of the five fails (proved by
evaluation in the C10 theorem). -/
def defaultCharacters : List Character :=
  [("Aragorn", "Guerreiro", (10 : Int)), ("Gandalf", "Mago", 100),
   ("Legolas", "Arqueiro", 25), ("Gimli", "Guerreiro", 20),
   ("Frodo", "Arqueiro", 5)].filterMap
    fun t => (mkCharacter t.1 t.2.1 t.2.2).toOption

/-- The constructor's state: an empty map seeded by
`#initializeDefaultCharacters`, which `set`s each default character under
`character.name().value().toLowerCase()`. -/
def initialState : CharMap :=
  defaultCharacters.foldl (fun m ch => mapSet m (createKey ch.name) ch) []

/-- `findByName`: `this.#characters.get(this.#createKey(name)) || null`.
The argument is the name object's string value. -/
def findByName (m : CharMap) (n : String) : Option Character :=
  mapGet m (createKey n)

/-- `findAll`: `Array.from(this.#characters.values())`. -/
def findAll (m : CharMap) : List Character :=
  m.map Prod.snd

/-- `findByClass`: filter on `character.characterClass().equals(cls)`. -/
def findByClass (m : CharMap) (cls : String) : List Character :=
  (findAll m).filter fun ch => classEquals ch.cls cls

/-- `findByLevelRange`: `#validateLevelRange` throws when
`minLevel.isGreaterThan(maxLevel)` (a ValidationError kind realized as a
plain `Error` in the source), then filters on
`!level.isGreaterThan(maxLevel) && !minLevel.isGreaterThan(level)`. -/
def findByLevelRange (m : CharMap) (mn mx : Int) : Except DomainErr (List Character) :=
  if mx < mn then
    .error (.validation "Minimum level cannot be greater than maximum level")
  else
    .ok ((findAll m).filter fun ch =>
      !(decide (mx < ch.level)) && !(decide (ch.level < mn)))

/-- `save`: upsert `this.#characters.set(this.#createKey(character.name()), character)`. -/
def save (m : CharMap) (c : Character) : CharMap :=
  mapSet m (createKey c.name) c

/-- `remove`: `this.#characters.delete(this.#createKey(name))`, returning
whether an entry was deleted together with the new state. -/
def removeByName (m : CharMap) (n : String) : Bool × CharMap :=
  (mapHas m (createKey n), mapDelete m (createKey n))

/-- `exists`: `this.#characters.has(this.#createKey(name))`. -/
def existsByName (m : CharMap) (n : String) : Bool :=
  mapHas m (createKey n)

/-- `count`: `this.#characters.size`. -/
def count (m : CharMap) : Nat :=
  m.length

/-- `findBySpecification`: filter of the values on
`specification.isSatisfiedBy(character)`. -/
def findBySpecification (m : CharMap) (s : Spec) : List Character :=
  (findAll m).filter fun ch => s.isSatisfiedBy ch

/-- States reachable from the freshly constructed repository through its
public mutating operations (`save`, `remove`); the read operations do not
change the state. -/
inductive Reachable : CharMap → Prop where
  | init : Reachable initialState
  | saveStep (m : CharMap) (c : Character) : Reachable m → Reachable (save m c)
  | removeStep (m : CharMap) (n : String) : Reachable m → Reachable (removeByName m n).2

/-- The repository's structural invariant: keys are pairwise distinct, and
every entry is stored under the lower-cased name of its character. -/
def repoInv (m : CharMap) : Prop :=
  (m.map Prod.fst).Nodup ∧ ∀ p ∈ m, p.1 = createKey p.2.name

/-- At most one stored character per case-insensitive name. -/
def atMostOnePerName (m : CharMap) : Prop :=
  ∀ p ∈ m, ∀ q ∈ m, createKey p.2.name = createKey q.2.name → p = q

/-! ## Application service

From `CharacterService` in the service module.  The JavaScript methods
return a promise and mutate the injected repository; here each command
returns its result together with the repository state after the call, so
an error outcome carries the unchanged state. -/

/-- `CharacterService.createCharacter(name, className, level)`: wrap the
name (value-object construction may fail), fail with
`CharacterAlreadyExistsError` when `repository.exists` reports the name,
otherwise construct the character (construction may fail validation) and
`save` it. -/
def createCharacter (m : CharMap) (name cls : String) (level : Int) :
    Except DomainErr Character × CharMap :=
  match mkCharacterName name with
  | .error e => (.error e, m)
  | .ok cn =>
    if existsByName m cn then (.error (.alreadyExists cn), m)
    else
      match mkCharacter name cls level with
      | .error e => (.error e, m)
      | .ok ch => (.ok ch, save m ch)

/-- `CharacterService.levelUpCharacter(name)`: fetch the character
(`CharacterNotFoundError` when absent), call the aggregate's `levelUp`,
throw `ErrorFactory.maxLevelReached()` when the aggregate reports failure
(nothing is saved in that branch), otherwise persist the updated
character. -/
def levelUpCharacter (m : CharMap) (name : String) :
    Except DomainErr Character × CharMap :=
  match mkCharacterName name with
  | .error e => (.error e, m)
  | .ok cn =>
    match findByName m cn with
    | none => (.error (.notFound cn), m)
    | some ch =>
      let r := ch.levelUp
      if r.1 then (.ok r.2, save m r.2)
      else (.error (.invalidOperation "levelUp" "Character is already at maximum level"), m)

/-- The statistics record built by `CharacterService.getCharacterStatistics`.
The source renders the non-empty average as a two-decimal string via
`toFixed(2)` and the empty average as the number 0; the field here is the
exact rational average (0 for the empty repository, where the two agree
exactly). -/
structure CharacterStatistics where
  total : Nat
  byClass : List (String × Nat)
  novice : Nat
  experienced : Nat
  masters : Nat
  averageLevel : Rat
  highestLevel : Int
  lowestLevel : Int
  totalCombatPower : Int

/-- `stats.byClass[className] = (stats.byClass[className] || 0) + 1` on a
plain object, which preserves key insertion order. -/
def bumpClass (l : List (String × Nat)) (k : String) : List (String × Nat) :=
  if l.any fun p => p.1 = k then
    l.map fun p => if p.1 = k then (p.1, p.2 + 1) else p
  else l ++ [(k, 1)]

/-- One iteration of the `allCharacters.forEach` loop in
`getCharacterStatistics`; the second component is the running `totalLevel`. -/
def statsStep (power : Character → Int) (acc : CharacterStatistics × Int)
    (ch : Character) : CharacterStatistics × Int :=
  let s := acc.1
  let s := { s with byClass := bumpClass s.byClass ch.cls }
  let s :=
    if ch.isMaster then { s with masters := s.masters + 1 }
    else if ch.isExperienced then { s with experienced := s.experienced + 1 }
    else { s with novice := s.novice + 1 }
  let s := { s with
    highestLevel := max s.highestLevel ch.level,
    lowestLevel := min s.lowestLevel ch.level,
    totalCombatPower := s.totalCombatPower + power ch }
  (s, acc.2 + ch.level)

/-- The body of `getCharacterStatistics` on the fetched character list:
the stats object starts with `averageLevel: 0`, `highestLevel: 0`,
`lowestLevel: 100`, is folded over every character, and the average is
set to `totalLevel / length` only when the list is non-empty.  The
combat-power formula lives in the missing entities module, so it is a
parameter. -/
def computeStatistics (power : Character → Int) (chars : List Character) :
    CharacterStatistics :=
  let base : CharacterStatistics :=
    { total := chars.length, byClass := [], novice := 0, experienced := 0,
      masters := 0, averageLevel := 0, highestLevel := 0, lowestLevel := 100,
      totalCombatPower := 0 }
  let r := chars.foldl (statsStep power) (base, 0)
  { r.1 with averageLevel :=
      if 0 < chars.length then (r.2 : Rat) / (chars.length : Rat) else 0 }

/-- `CharacterService.getCharacterStatistics()`: statistics over
`getAllCharacters()`, i.e. over the repository's `findAll`. -/
def getCharacterStatistics (power : Character → Int) (m : CharMap) :
    CharacterStatistics :=
  computeStatistics power (findAll m)

/-! ## Reference-level repository model

JavaScript objects are references: `findByName` hands back the stored
`Character` object itself (`this.#characters.get(key)`), and `Array.from`
copies the array but not its elements.  The aggregate's `levelUp` mutates
the object in place (the service relies on this: it calls
`character.levelUp()` and then saves the same object).  To reason about
what a caller can do through a returned value, this model makes object
identity explicit: a heap of characters addressed by index, and the map
from keys to addresses. -/

structure HeapRepo where
  heap : List Character
  entries : List (String × Nat)
deriving DecidableEq, Repr

/-- The freshly constructed repository in the reference model: the five
default characters on the heap, each entry pointing at its object. -/
def initHeapRepo : HeapRepo :=
  { heap := defaultCharacters,
    entries := defaultCharacters.enum.map fun p => (createKey p.2.name, p.1) }

/-- `findByName` at the reference level: the address of the stored object
(no copy is made by the source). -/
def findByNameRef (s : HeapRepo) (n : String) : Option Nat :=
  (s.entries.find? fun p => p.1 = createKey n).map Prod.snd

/-- Dereference an address on the heap. -/
def readRef (s : HeapRepo) (a : Nat) : Option Character :=
  s.heap.get? a

/-- The character value a caller observes from `findByName`. -/
def findByNameObj (s : HeapRepo) (n : String) : Option Character :=
  (findByNameRef s n).bind (readRef s)

/-- The caller invokes `levelUp()` on the object at address `a` — the
in-place mutation of the aggregate, performed without going through any
repository operation. -/
def levelUpAt (s : HeapRepo) (a : Nat) : HeapRepo :=
  match s.heap.get? a with
  | some ch =>
    if 100 ≤ ch.level then s
    else { s with heap := s.heap.set a { ch with level := ch.level + 1 } }
  | none => s

/-! ## Concrete characters used by the witnesses -/

def rexChar : Character := { name := "Rex", cls := "Guerreiro", level := 95 }

def boromirChar : Character := { name := "Boromir", cls := "Guerreiro", level := 15 }

def gandalfChar : Character := { name := "Gandalf", cls := "Mago", level := 100 }

def aragornChar : Character := { name := "Aragorn", cls := "Guerreiro", level := 10 }

def alphaChar : Character := { name := "Alpha", cls := "Guerreiro", level := 10 }

def betaChar : Character := { name := "Beta", cls := "Mago", level := 35 }

def gammaChar : Character := { name := "Gamma", cls := "Mago", level := 25 }

/-- A concrete stand-in for the unobservable combat-power formula, used
only to instantiate statistics witnesses; no settled property depends on
its values. -/
def zeroPower : Character → Int := fun _ => 0

/-! ## Shared lemmas about the map model -/

theorem mapGet_mapSet (k : String) (v : Character) :
    ∀ (m : CharMap) (k' : String),
      mapGet (mapSet m k v) k' = if k' = k then some v else mapGet m k'
  | [], k' => by
    by_cases h : k' = k
    · subst h; simp [mapSet, mapGet]
    · have h' : k ≠ k' := fun hh => h hh.symm
      simp [mapSet, mapGet, h, h']
  | p :: rest, k' => by
    by_cases hp : p.1 = k
    · by_cases h : k' = k
      · subst h; simp [mapSet, hp, mapGet]
      · have h' : k ≠ k' := fun hh => h hh.symm
        simp [mapSet, hp, mapGet, h, h']
    · by_cases hq : p.1 = k'
      · have h : k' ≠ k := fun hh => hp (hq.trans hh)
        simp [mapSet, hp, mapGet, hq, h]
      · simp [mapSet, hp, mapGet, hq, mapGet_mapSet k v rest k']

theorem mem_mapSet (k : String) (v : Character) :
    ∀ (m : CharMap) (q : String × Character),
      q ∈ mapSet m k v → q = (k, v) ∨ q ∈ m
  | [], q, h => by
    simp [mapSet] at h
    exact Or.inl h
  | p :: rest, q, h => by
    by_cases hp : p.1 = k
    · simp [mapSet, hp] at h
      rcases h with h | h
      · exact Or.inl (by simp [h])
      · exact Or.inr (List.mem_cons_of_mem _ h)
    · simp [mapSet, hp] at h
      rcases h with h | h
      · exact Or.inr (by simp [h])
      · rcases mem_mapSet k v rest q h with h2 | h2
        · exact Or.inl h2
        · exact Or.inr (List.mem_cons_of_mem _ h2)

theorem nodup_keys_mapSet (k : String) (v : Character) :
    ∀ (m : CharMap), (m.map Prod.fst).Nodup → ((mapSet m k v).map Prod.fst).Nodup
  | [], _ => by simp [mapSet]
  | p :: rest, h => by
    rw [List.map_cons, List.nodup_cons] at h
    by_cases hp : p.1 = k
    · rw [mapSet]
      simp only [hp, if_pos]
      rw [List.map_cons, List.nodup_cons]
      exact ⟨hp ▸ h.1, h.2⟩
    · rw [mapSet]
      simp only [hp, if_neg, not_false_iff]
      rw [List.map_cons, List.nodup_cons]
      refine ⟨?_, nodup_keys_mapSet k v rest h.2⟩
      intro hmem
      rcases List.mem_map.mp hmem with ⟨q, hq, hfst⟩
      rcases mem_mapSet k v rest q hq with rfl | hq2
      · exact hp hfst.symm
      · exact h.1 (List.mem_map.mpr ⟨q, hq2, hfst⟩)

theorem repoInv_reachable (m : CharMap) (h : Reachable m) : repoInv m := by
  induction h with
  | init =>
    exact ⟨by decide, by decide⟩
  | saveStep m c _ ih =>
    refine ⟨nodup_keys_mapSet _ _ _ ih.1, ?_⟩
    intro p hp
    rcases mem_mapSet _ _ _ _ hp with rfl | hp2
    · rfl
    · exact ih.2 p hp2
  | removeStep m n _ ih =>
    refine ⟨?_, ?_⟩
    · exact ih.1.sublist ((List.filter_sublist m).map Prod.fst)
    · intro p hp
      exact ih.2 p (List.mem_of_mem_filter hp)

theorem atMostOnePerName_of_repoInv (m : CharMap) (h : repoInv m) :
    atMostOnePerName m := by
  intro p hp q hq hname
  have hkey : p.1 = q.1 := by rw [h.2 p hp, h.2 q hq, hname]
  exact List.inj_on_of_nodup_map h.1 hp hq hkey

/-! ## Claim theorems -/

/-- C1.  For every character `x` and specifications `A`, `B`, evaluating
the AND combinator equals the conjunction of the operands' evaluations,
and double negation is the identity on truth value. -/
theorem and_conjunction_and_not_involutive (x : Character) (A B : Spec) :
    (Spec.and A B).isSatisfiedBy x = (A.isSatisfiedBy x && B.isSatisfiedBy x) ∧
      (Spec.not (Spec.not A)).isSatisfiedBy x = A.isSatisfiedBy x := by
  refine ⟨rfl, ?_⟩
  simp [Spec.isSatisfiedBy]

/-- C2.  For every repository state and specification,
`findBySpecification` returns exactly the characters of `findAll` that
satisfy the specification, in the same relative order. -/
theorem findBySpecification_eq_findAll_filter (m : CharMap) (s : Spec) :
    findBySpecification m s = (findAll m).filter fun c => s.isSatisfiedBy c := rfl

/-- C8.  `findByLevelRange` fails with a ValidationError when
`min > max`, and otherwise returns exactly the stored characters whose
level lies in the inclusive range `[min, max]`. -/
theorem findByLevelRange_validates_and_filters (m : CharMap) (mn mx : Int) :
    findByLevelRange m mn mx =
      if mx < mn then
        .error (.validation "Minimum level cannot be greater than maximum level")
      else
        .ok ((findAll m).filter fun ch => decide (mn ≤ ch.level) && decide (ch.level ≤ mx)) := by
  rw [findByLevelRange]
  by_cases h : mx < mn
  · simp [h]
  · simp only [h, if_neg, not_false_iff, Except.ok.injEq]
    refine List.filter_congr ?_
    intro ch _
    by_cases h1 : mn ≤ ch.level <;> by_cases h2 : ch.level ≤ mx <;>
      (simp [h1, h2]; try omega)

/-- C3.  In every reachable state of the repository the structural
invariant holds, at most one stored character exists per case-insensitive
name, and `save` is an upsert: after `save c`, looking up any name finds
`c` exactly when the name agrees with `c`'s case-insensitively, and is
otherwise unchanged. -/
theorem save_is_upsert_and_names_unique (m : CharMap) (h : Reachable m)
    (c : Character) (k : String) :
    repoInv m ∧ atMostOnePerName m ∧
      findByName (save m c) k =
        (if createKey k = createKey c.name then some c else findByName m k) := by
  have hinv := repoInv_reachable m h
  refine ⟨hinv, atMostOnePerName_of_repoInv m hinv, ?_⟩
  rw [findByName, save, mapGet_mapSet, findByName]

/-- Witness for C3 at the freshly constructed repository. -/
theorem save_is_upsert_and_names_unique_witness :
    repoInv initialState ∧ atMostOnePerName initialState ∧
      findByName (save initialState boromirChar) "Boromir" =
        (if createKey "Boromir" = createKey boromirChar.name then some boromirChar
         else findByName initialState "Boromir") :=
  save_is_upsert_and_names_unique initialState Reachable.init boromirChar "Boromir"

/-- C4.  `createCharacter` fails with `CharacterAlreadyExistsError` when a
character with the requested name (case-insensitive) already exists, and
otherwise constructs the character through the validating constructor and
saves it. -/
theorem createCharacter_checks_existence (m : CharMap) (name cls : String)
    (level : Int) (cn : String) (hn : mkCharacterName name = .ok cn) :
    (existsByName m cn = true →
      createCharacter m name cls level = (.error (.alreadyExists cn), m)) ∧
    (∀ ch, existsByName m cn = false → mkCharacter name cls level = .ok ch →
      createCharacter m name cls level = (.ok ch, save m ch)) := by
  constructor
  · intro hex
    simp only [createCharacter, hn, hex, if_true]
  · intro ch hex hch
    simp only [createCharacter, hn, hex, hch, Bool.false_eq_true, if_false]

/-- Witness for C4: the spec's scenario — creating Rex as a level-95
warrior succeeds, and creating Rex again as a mage then fails with
`CharacterAlreadyExistsError`. -/
theorem createCharacter_checks_existence_witness :
    createCharacter initialState "Rex" "Guerreiro" 95 =
        (.ok rexChar, save initialState rexChar) ∧
      createCharacter (save initialState rexChar) "Rex" "Mago" 10 =
        (.error (.alreadyExists "Rex"), save initialState rexChar) :=
  ⟨(createCharacter_checks_existence initialState "Rex" "Guerreiro" 95 "Rex"
      rfl).2 rexChar (by decide) rfl,
   (createCharacter_checks_existence (save initialState rexChar) "Rex" "Mago" 10 "Rex"
      rfl).1 (by decide)⟩

/-- C5.  For a stored character at level 100, the aggregate's `levelUp`
reports failure without changing the level, and the service's
`levelUpCharacter` fails with `InvalidOperationError` (max level reached)
and leaves the repository state unchanged. -/
theorem levelUp_at_cap_fails (m : CharMap) (name cn : String) (ch : Character)
    (hn : mkCharacterName name = .ok cn)
    (hf : findByName m cn = some ch) (hl : ch.level = 100) :
    ch.levelUp = (false, ch) ∧
      levelUpCharacter m name =
        (.error (.invalidOperation "levelUp" "Character is already at maximum level"), m) := by
  have hup : ch.levelUp = (false, ch) := by
    rw [Character.levelUp, if_pos (by omega)]
  refine ⟨hup, ?_⟩
  simp only [levelUpCharacter, hn, hf, hup, Bool.false_eq_true, if_false]

/-- Witness for C5: Gandalf is seeded at level 100 and cannot level up. -/
theorem levelUp_at_cap_fails_witness :
    gandalfChar.levelUp = (false, gandalfChar) ∧
      levelUpCharacter initialState "Gandalf" =
        (.error (.invalidOperation "levelUp" "Character is already at maximum level"),
         initialState) :=
  levelUp_at_cap_fails initialState "Gandalf" "Gandalf" gandalfChar
    rfl (by decide) (by decide)

/-- C6.  `canFight` is false against the same character by
case-insensitive name equality, false when the absolute level difference
exceeds 20, and true otherwise. -/
theorem canFight_rules (a b : Character) :
    (nameEquals a.name b.name = true → a.canFight b = false) ∧
    (nameEquals a.name b.name = false → 20 < (a.level - b.level).natAbs →
      a.canFight b = false) ∧
    (nameEquals a.name b.name = false → (a.level - b.level).natAbs ≤ 20 →
      a.canFight b = true) := by
  refine ⟨?_, ?_, ?_⟩
  · intro h
    simp [Character.canFight, h]
  · intro h1 h2
    simp [Character.canFight, h1, h2]
  · intro h1 h2
    simp [Character.canFight, h1, Nat.not_lt.mpr h2]

/-- Witness for C6: levels 10 vs 35 cannot fight (difference 25), levels
10 vs 25 can (difference 15), and a character cannot fight itself. -/
theorem canFight_rules_witness :
    alphaChar.canFight betaChar = false ∧
      alphaChar.canFight gammaChar = true ∧
      alphaChar.canFight alphaChar = false :=
  ⟨(canFight_rules alphaChar betaChar).2.1 (by decide) (by decide),
   (canFight_rules alphaChar gammaChar).2.2 (by decide) (by decide),
   (canFight_rules alphaChar alphaChar).1 (by decide)⟩

/-- C7 counterexample: on the empty repository the statistics do report
total 0 and averageLevel 0, but `lowestLevel` is the initialization
sentinel 100, which lies inside the valid level range [1, 100] — so the
claim that the reported `lowestLevel` is not a value that could be
mistaken for a real character level is false at this input. -/
theorem statistics_empty_sentinel_in_range :
    ¬ ((getCharacterStatistics zeroPower []).total = 0 ∧
       (getCharacterStatistics zeroPower []).averageLevel = 0 ∧
       ¬ (1 ≤ (getCharacterStatistics zeroPower []).lowestLevel ∧
          (getCharacterStatistics zeroPower []).lowestLevel ≤ 100)) := by
  decide

/-- C7 (amended).  When the repository holds zero characters,
`getCharacterStatistics` returns total 0 and averageLevel 0, and the
reported `lowestLevel` is the initialization sentinel 100 — a value inside
the valid level range [1, 100]. -/
theorem statistics_empty_totals (power : Character → Int) (m : CharMap)
    (h : findAll m = []) :
    (getCharacterStatistics power m).total = 0 ∧
      (getCharacterStatistics power m).averageLevel = 0 ∧
      (getCharacterStatistics power m).lowestLevel = 100 := by
  rw [getCharacterStatistics, h]
  exact ⟨rfl, rfl, rfl⟩

/-- Witness for the amended C7 at the concrete empty repository. -/
theorem statistics_empty_totals_witness :
    (getCharacterStatistics zeroPower []).total = 0 ∧
      (getCharacterStatistics zeroPower []).averageLevel = 0 ∧
      (getCharacterStatistics zeroPower []).lowestLevel = 100 :=
  statistics_empty_totals zeroPower [] rfl

/-- C9 counterexample: `findByName` hands back the stored object itself
(address 0 holds Aragorn); the caller invoking the aggregate's in-place
`levelUp` on that returned object changes what the repository
subsequently reports, so a caller mutation on a returned value does
change the repository's internal state. -/
theorem read_result_mutation_visible :
    findByNameRef initHeapRepo "Aragorn" = some 0 ∧
      findByNameObj initHeapRepo "Aragorn" = some aragornChar ∧
      findByNameObj (levelUpAt initHeapRepo 0) "Aragorn" =
        some { name := "Aragorn", cls := "Guerreiro", level := 11 } ∧
      findByNameObj (levelUpAt initHeapRepo 0) "Aragorn" ≠
        findByNameObj initHeapRepo "Aragorn" := by
  decide

/-- C9 (amended).  Read operations return fresh top-level sequences (the
returned array is a new object), but the elements alias the stored
aggregates: in-place mutation of a character obtained from a read (the
aggregate's `levelUp`) is visible through every subsequent repository
read, while the repository's key structure is untouched. -/
theorem read_result_aliasing (s : HeapRepo) (n : String) (a : Nat)
    (ch : Character) (_h1 : findByNameRef s n = some a)
    (h2 : readRef s a = some ch) (h3 : ch.level < 100) :
    readRef (levelUpAt s a) a = some { ch with level := ch.level + 1 } ∧
      (levelUpAt s a).entries = s.entries := by
  rw [readRef] at h2
  have hlt : a < s.heap.length := (List.get?_eq_some.mp h2).1
  have hne : ¬ (100 ≤ ch.level) := by omega
  rw [levelUpAt, h2]
  dsimp only
  rw [if_neg hne]
  refine ⟨?_, rfl⟩
  show (s.heap.set a { ch with level := ch.level + 1 }).get? a =
    some { ch with level := ch.level + 1 }
  rw [List.get?_eq_getElem?]
  exact List.getElem?_set_eq_of_lt _ hlt

/-- Witness for the amended C9: mutating Aragorn, obtained from
`findByName` on the fresh repository, is visible at his address. -/
theorem read_result_aliasing_witness :
    readRef (levelUpAt initHeapRepo 0) 0 =
        some { aragornChar with level := aragornChar.level + 1 } ∧
      (levelUpAt initHeapRepo 0).entries = initHeapRepo.entries :=
  read_result_aliasing initHeapRepo "Aragorn" 0 aragornChar
    (by decide) (by decide) (by decide)

/-- C10.  A freshly constructed `InMemoryCharacterRepository` is never
empty: the constructor seeds the five default characters, so `count`
returns 5 and `exists` holds for each of the five names. -/
theorem initial_repository_has_five_defaults :
    count initialState = 5 ∧
      existsByName initialState "Aragorn" = true ∧
      existsByName initialState "Gandalf" = true ∧
      existsByName initialState "Legolas" = true ∧
      existsByName initialState "Gimli" = true ∧
      existsByName initialState "Frodo" = true ∧
      initialState ≠ [] := by
  refine ⟨by decide, by decide, by decide, by decide, by decide, by decide, by decide⟩

end DinoPark
